import Mathlib

/-!
Verification of the table column-resize hook (`useTableColumnResize`), the
table virtualizer scroll synchronization (`TableVirtualizer` in `TableView`),
the table default-width calculators (`TableView`), and the `SelectList`
component logic, as shallow embeddings of the TypeScript/JavaScript sources.

Conventions used throughout:
* JavaScript numbers are modelled as `Int` where the code only ever adds
  integer deltas, and as `ℚ` where fractional widths matter; `Option ℚ` with
  `none` standing for `Infinity` (resp. `NaN`, stated locally) models the
  non-finite values actually reachable in the code under scrutiny.
* Stateful hook code (refs such as `isResizing`/`lastSize`) becomes explicit
  state passing: each handler is a function from state to state plus a list of
  emitted callback events.
* External dependencies of the embedded functions (for example
  `state.onColumnResize` from `@react-stately/table`, or
  `virtualizer.scrollToItem`) are modelled abstractly, since the claims under
  consideration do not depend on their internals.
-/

namespace ColumnResize

/-- Sizes map returned by `state.onColumnResize`. The claims only depend on
when callbacks fire and on nullness of the stored `lastSize`, never on the
contents of the map, so the map is modelled abstractly by the width that was
passed to `onColumnResize`. -/
abbrev Sizes := Int

/-- The mutable refs of `useTableColumnResize` (`isResizing.current`,
`lastSize.current`) plus the column width held by the external resize state
(`state.getColumnWidth`, updated by `state.onColumnResize`). -/
structure RState where
  isResizing : Bool
  lastSize : Option Sizes
  colWidth : Int
  deriving DecidableEq, Repr

/-- Callback invocations observable from the hook: `onResizeStart`,
`onResize`, `onResizeEnd`, each carrying the sizes argument it was passed. -/
inductive CB where
  | rStart (s : Sizes)
  | rResize (s : Sizes)
  | rEnd (s : Sizes)
  deriving DecidableEq, Repr

/-- Embedding of `startResize` from `useTableColumnResize`: if not already
resizing, store `onColumnResize(key, getColumnWidth(key))` into `lastSize` and
fire `onResizeStart` with it; in all cases set `isResizing := true`. -/
def startResize (st : RState) : RState × List CB :=
  if st.isResizing then ({ st with isResizing := true }, [])
  else
    let sizes : Sizes := st.colWidth
    ({ st with lastSize := some sizes, isResizing := true }, [CB.rStart sizes])

/-- Embedding of `resize` from `useTableColumnResize`: call
`onColumnResize(key, newWidth)`, fire `onResize` with the resulting sizes, and
store them into `lastSize`. -/
def resize (newWidth : Int) (st : RState) : RState × List CB :=
  let sizes : Sizes := newWidth
  ({ st with colWidth := newWidth, lastSize := some sizes }, [CB.rResize sizes])

/-- Embedding of `endResize` from `useTableColumnResize`: if `lastSize` is
null, populate it from a no-op `onColumnResize`; if resizing, fire
`onResizeEnd` with `lastSize`; finally clear `isResizing` and `lastSize`. -/
def endResize (st : RState) : RState × List CB :=
  let st1 := match st.lastSize with
    | none => { st with lastSize := some st.colWidth }
    | some _ => st
  let out := if st1.isResizing then [CB.rEnd (st1.lastSize.getD 0)] else []
  ({ st1 with isResizing := false, lastSize := none }, out)

/-- An event delivered to the hook: a call to `startResize`, `resize`, or
`endResize`. -/
inductive REvent where
  | startE
  | resizeE (w : Int)
  | endE
  deriving DecidableEq, Repr

/-- Dispatch one event to the corresponding handler. -/
def step (e : REvent) (st : RState) : RState × List CB :=
  match e with
  | .startE => startResize st
  | .resizeE w => resize w st
  | .endE => endResize st

/-- Run a sequence of events from a state, collecting the emitted callback
trace in order. -/
def run (st : RState) : List REvent → RState × List CB
  | [] => (st, [])
  | e :: es => ((run (step e st).1 es).1, (step e st).2 ++ (run (step e st).1 es).2)

/-- Initial state of the hook: `isResizing.current = false`,
`lastSize.current = null`, column at width `w`. -/
def initState (w : Int) : RState :=
  { isResizing := false, lastSize := none, colWidth := w }

/-- Episode checker for a callback trace. `inEp` records whether an episode is
currently open. An `onResizeStart` is legal only when no episode is open and
opens one; an `onResizeEnd` is legal only when an episode is open and closes
it; `onResize` is unconstrained. Returns `none` when the trace violates the
matched, non-nested episode discipline, and `some` of the final open/closed
flag otherwise. -/
def episodeCheck : Bool → List CB → Option Bool
  | inEp, [] => some inEp
  | inEp, CB.rStart _ :: r => if inEp then none else episodeCheck true r
  | inEp, CB.rEnd _ :: r => if inEp then episodeCheck false r else none
  | inEp, CB.rResize _ :: r => episodeCheck inEp r

theorem episodeCheck_append (b : Bool) (xs ys : List CB) :
    episodeCheck b (xs ++ ys) = (episodeCheck b xs).bind (fun c => episodeCheck c ys) := by
  induction xs generalizing b with
  | nil => simp [episodeCheck]
  | cons x r ih =>
    cases x with
    | rStart s => cases b <;> simp [episodeCheck, ih]
    | rResize s => simp [episodeCheck, ih]
    | rEnd s => cases b <;> simp [episodeCheck, ih]

theorem episodeCheck_step (e : REvent) (st : RState) :
    episodeCheck st.isResizing (step e st).2 = some (step e st).1.isResizing := by
  cases e with
  | startE => cases h : st.isResizing <;> simp [step, startResize, h, episodeCheck]
  | resizeE w => simp [step, resize, episodeCheck]
  | endE =>
    cases h : st.isResizing <;> cases hl : st.lastSize <;>
      simp [step, endResize, h, hl, episodeCheck]

theorem episodeCheck_run (es : List REvent) (st : RState) :
    episodeCheck st.isResizing (run st es).2 = some (run st es).1.isResizing := by
  induction es generalizing st with
  | nil => simp [run, episodeCheck]
  | cons e r ih =>
    simp only [run]
    rw [episodeCheck_append, episodeCheck_step]
    simpa using ih (step e st).1

/-- C1: In the column-resize state machine of `useTableColumnResize`, for
every sequence of `startResize`/`resize`/`endResize` events the emitted
callback trace forms matched, non-nested episodes: `onResizeStart` fires
exactly once when an episode begins (never twice without an intervening end,
as certified by `episodeCheck`, whose result moreover equals the final
`isResizing` flag), `onResizeEnd` fires at most once per episode and never
without a preceding `onResizeStart`; and immediately after `endResize` runs,
`isResizing` is `false` and the stored `lastSize` is null. -/
theorem resize_callbacks_well_nested (es : List REvent) (w : Int) (st : RState) :
    episodeCheck false (run (initState w) es).2 = some (run (initState w) es).1.isResizing
    ∧ (endResize st).1.isResizing = false
    ∧ (endResize st).1.lastSize = none := by
  refine ⟨episodeCheck_run es (initState w), ?_, ?_⟩ <;>
    cases st.lastSize <;> simp [endResize]

/-- Pointer types reported by `useMove` events. -/
inductive PType where
  | mouse
  | keyboard
  | touch
  | pen
  | virtualPointer
  deriving DecidableEq, Repr

/-- Text direction from `useLocale`. -/
inductive Direction where
  | ltr
  | rtl
  deriving DecidableEq, Repr

/-- Embedding of the delta computation in the `onMove` handler of
`useTableColumnResize`: first negate `deltaX` in an RTL locale, then for
keyboard events replace a pure-vertical delta by the negated `deltaY` and
multiply by 10. -/
def effDeltaX (dir : Direction) (pt : PType) (dx0 dy : Int) : Int :=
  let dx1 := if dir = Direction.rtl then dx0 * (-1) else dx0
  if pt = PType.keyboard then
    (if dy ≠ 0 ∧ dx1 = 0 then dy * (-1) else dx1) * 10
  else dx1

/-- Embedding of the tail of the `onMove` handler: if the adjusted delta is
nonzero, add it to `columnResizeWidthRef.current` and call `resize` with the
accumulated width; otherwise do nothing. Returns the new accumulator and the
width passed to `resize` (`none` when no resize was performed). -/
def onMoveStep (dir : Direction) (pt : PType) (dx0 dy : Int) (accum : Int) :
    Int × Option Int :=
  let d := effDeltaX dir pt dx0 dy
  if d ≠ 0 then (accum + d, some (accum + d)) else (accum, none)

/-- C5: During a column-resize move, a keyboard delta with `deltaX = 0` is
converted to the negated `deltaY` and multiplied by 10; an RTL locale negates
the incoming horizontal delta before these keyboard adjustments; every
keyboard delta ends up a multiple of 10; and a move whose resulting horizontal
delta is zero performs no resize at all (accumulator unchanged, no `resize`
call). -/
theorem onMove_delta_pipeline (dir : Direction) (pt : PType) (dx dy accum : Int) :
    effDeltaX dir PType.keyboard 0 dy = -(dy * 10)
    ∧ effDeltaX Direction.rtl pt dx dy = effDeltaX Direction.ltr pt (-dx) dy
    ∧ (10 : Int) ∣ effDeltaX dir PType.keyboard dx dy
    ∧ (onMoveStep dir pt dx dy accum = (accum, none) ↔ effDeltaX dir pt dx dy = 0) := by
  refine ⟨?_, ?_, ?_, ?_⟩
  · cases dir <;> by_cases h : dy = 0 <;> simp [effDeltaX, h]
  · cases pt <;> simp [effDeltaX, mul_comm]
  · show (10 : Int) ∣
      (if dy ≠ 0 ∧ (if dir = Direction.rtl then dx * (-1) else dx) = 0 then dy * (-1)
        else if dir = Direction.rtl then dx * (-1) else dx) * 10
    exact dvd_mul_left 10 _
  · by_cases h : effDeltaX dir pt dx dy = 0 <;> simp [onMoveStep, h]

/-- Embedding of the `onChange` handler of `useTableColumnResize` on the
hidden range input. The parsed value `parseFloat(e.target.value)` is modelled
as `Option ℚ`, with `none` standing for `NaN` (for which the JavaScript
comparison `nextValue > currentWidth` is false). The function returns the
width passed to `resize`. -/
def onChangeNextValue (parsed : Option ℚ) (currentWidth : ℚ) : ℚ :=
  match parsed with
  | some v => if currentWidth < v then currentWidth + 10 else currentWidth - 10
  | none => currentWidth - 10

/-- C3: For every change event on the hidden resize input, the new width
requested from the resize state is the current width plus 10 exactly when the
parsed value is strictly greater than the current width, and the current width
minus 10 in every other case (including equality and `NaN`); the magnitude of
the parsed value never affects the step size: the result is always one of
`current + 10` or `current - 10`. -/
theorem onChange_step_width (v c : ℚ) (p : Option ℚ) :
    onChangeNextValue (some v) c = (if c < v then c + 10 else c - 10)
    ∧ onChangeNextValue none c = c - 10
    ∧ onChangeNextValue (some c) c = c - 10
    ∧ (onChangeNextValue p c = c + 10 ∨ onChangeNextValue p c = c - 10) := by
  refine ⟨rfl, rfl, by simp [onChangeNextValue], ?_⟩
  cases p with
  | none => exact Or.inr rfl
  | some q =>
    by_cases h : c < q
    · exact Or.inl (by simp [onChangeNextValue, h])
    · exact Or.inr (by simp [onChangeNextValue, h])

/-- JavaScript `Number.MAX_SAFE_INTEGER`. -/
def MAX_SAFE_INTEGER : Int := 2 ^ 53 - 1

/-- `Math.floor` on the extended values reachable here: column max width is a
finite rational or `Infinity` (modelled by `none`); `Math.floor(Infinity)` is
`Infinity`. -/
def floorExt : Option ℚ → Option Int
  | some q => some ⌊q⌋
  | none => none

/-- The `min`, `max` and `value` attributes produced for the hidden range
input. -/
structure RangeAttrs where
  min : Int
  max : Int
  value : Int
  deriving DecidableEq, Repr

/-- Embedding of the attribute computation in `useTableColumnResize`:
`min = Math.floor(getColumnMinWidth)`, `max = Math.floor(getColumnMaxWidth)`
with `Infinity` then replaced by `Number.MAX_SAFE_INTEGER`, and
`value = Math.floor(getColumnWidth)`. -/
def mkAriaAttrs (minW : ℚ) (maxW : Option ℚ) (curW : ℚ) : RangeAttrs :=
  let mn : Int := ⌊minW⌋
  let mx : Int := match floorExt maxW with
    | none => MAX_SAFE_INTEGER
    | some z => z
  let v : Int := ⌊curW⌋
  { min := mn, max := mx, value := v }

/-- C4: The attribute object for the hidden resize input always has `min`
equal to the floor of the column minimum width, `value` equal to the floor of
the current width, and `max` equal to the floor of the column maximum width,
with an unbounded maximum (`Infinity`) replaced by
`Number.MAX_SAFE_INTEGER`. -/
theorem aria_attrs_floored (minW curW q : ℚ) (maxW : Option ℚ) :
    (mkAriaAttrs minW maxW curW).min = ⌊minW⌋
    ∧ (mkAriaAttrs minW maxW curW).value = ⌊curW⌋
    ∧ (mkAriaAttrs minW (some q) curW).max = ⌊q⌋
    ∧ (mkAriaAttrs minW none curW).max = MAX_SAFE_INTEGER := by
  refine ⟨rfl, rfl, rfl, rfl⟩

end ColumnResize

namespace TableViz

/-- Scroll positions of the header container and the table body in
`TableVirtualizer`. -/
structure ScrollState where
  headerScrollLeft : ℚ
  bodyScrollLeft : ℚ
  deriving DecidableEq, Repr

/-- Embedding of the `onScroll` handler of `TableVirtualizer`:
`headerRef.current.scrollLeft = bodyRef.current.scrollLeft`. -/
def onScroll (s : ScrollState) : ScrollState :=
  { s with headerScrollLeft := s.bodyScrollLeft }

/-- Embedding of the `scrollToItem` callback of `TableVirtualizer`. The
external `virtualizer.scrollToItem` call may move the body scroll position; it
is modelled by an arbitrary function `virtScroll` of the current state.
Immediately afterwards the code runs
`headerRef.current.scrollLeft = bodyRef.current.scrollLeft`. -/
def scrollToItem (virtScroll : ScrollState → ℚ) (s : ScrollState) : ScrollState :=
  let s1 := { s with bodyScrollLeft := virtScroll s }
  { s1 with headerScrollLeft := s1.bodyScrollLeft }

/-- C2: The table virtualizer keeps the column header horizontally aligned
with the body: after a scroll event on the body, the header container's
`scrollLeft` equals the body's `scrollLeft` (and the body's own position is
untouched), and the same synchronization holds immediately after
`scrollToItem` runs, whatever scrolling the underlying virtualizer
performed. -/
theorem header_body_scroll_sync (s : ScrollState) (virtScroll : ScrollState → ℚ) :
    (onScroll s).headerScrollLeft = (onScroll s).bodyScrollLeft
    ∧ (onScroll s).bodyScrollLeft = s.bodyScrollLeft
    ∧ (scrollToItem virtScroll s).headerScrollLeft
        = (scrollToItem virtScroll s).bodyScrollLeft :=
  ⟨rfl, rfl, rfl⟩

end TableViz

namespace TableDefaults

/-- The provider scale used by `TableView`. -/
inductive Scale where
  | medium
  | large
  deriving DecidableEq, Repr

/-- Width table `DEFAULT_HIDE_HEADER_CELL_WIDTH` from `TableView`. -/
def DEFAULT_HIDE_HEADER_CELL_WIDTH : Scale → Nat
  | .medium => 38
  | .large => 46

/-- Width table `SELECTION_CELL_DEFAULT_WIDTH` from `TableView`. -/
def SELECTION_CELL_DEFAULT_WIDTH : Scale → Nat
  | .medium => 38
  | .large => 48

/-- The column-node props destructured by the calculators. -/
structure ColumnNodeProps where
  hideHeader : Bool
  isSelectionCell : Bool
  showDivider : Bool
  deriving DecidableEq, Repr

/-- Embedding of `getDefaultWidth` from `TableView`; `none` models the
implicit `undefined` of the fall-through return. -/
def getDefaultWidth (scale : Scale) (p : ColumnNodeProps) : Option Nat :=
  if p.hideHeader then
    let width := DEFAULT_HIDE_HEADER_CELL_WIDTH scale
    some (if p.showDivider then width + 1 else width)
  else if p.isSelectionCell then
    some (SELECTION_CELL_DEFAULT_WIDTH scale)
  else
    none

/-- Embedding of `getDefaultMinWidth` from `TableView`; every branch returns a
number, with 75 as the fall-through value. -/
def getDefaultMinWidth (scale : Scale) (p : ColumnNodeProps) : Nat :=
  if p.hideHeader then
    let width := DEFAULT_HIDE_HEADER_CELL_WIDTH scale
    if p.showDivider then width + 1 else width
  else if p.isSelectionCell then
    SELECTION_CELL_DEFAULT_WIDTH scale
  else
    75

/-- C6: For every column node: with `hideHeader` set, both calculators return
`DEFAULT_HIDE_HEADER_CELL_WIDTH` for the current scale plus 1 when
`showDivider` is set; otherwise for a selection cell both return
`SELECTION_CELL_DEFAULT_WIDTH` for the scale; otherwise `getDefaultWidth`
returns `undefined` while `getDefaultMinWidth` returns 75. -/
theorem default_width_calculators (scale : Scale) (p : ColumnNodeProps) :
    (p.hideHeader = true →
      getDefaultWidth scale p
          = some (DEFAULT_HIDE_HEADER_CELL_WIDTH scale + if p.showDivider then 1 else 0)
        ∧ getDefaultMinWidth scale p
          = DEFAULT_HIDE_HEADER_CELL_WIDTH scale + if p.showDivider then 1 else 0)
    ∧ (p.hideHeader = false → p.isSelectionCell = true →
      getDefaultWidth scale p = some (SELECTION_CELL_DEFAULT_WIDTH scale)
        ∧ getDefaultMinWidth scale p = SELECTION_CELL_DEFAULT_WIDTH scale)
    ∧ (p.hideHeader = false → p.isSelectionCell = false →
      getDefaultWidth scale p = none ∧ getDefaultMinWidth scale p = 75) := by
  obtain ⟨hh, sc, sd⟩ := p
  cases scale <;> cases hh <;> cases sc <;> cases sd <;>
    simp [getDefaultWidth, getDefaultMinWidth,
      DEFAULT_HIDE_HEADER_CELL_WIDTH, SELECTION_CELL_DEFAULT_WIDTH]

/-- Witness for C6 at a concrete input: a hidden-header column with a divider
on the medium scale gets width 39 from both calculators, and an ordinary
column gets no default width and minimum width 75. -/
theorem default_width_calculators_witness :
    (getDefaultWidth Scale.medium ⟨true, false, true⟩ = some 39
        ∧ getDefaultMinWidth Scale.medium ⟨true, false, true⟩ = 39)
    ∧ (getDefaultWidth Scale.large ⟨false, false, false⟩ = none
        ∧ getDefaultMinWidth Scale.large ⟨false, false, false⟩ = 75) :=
  ⟨(default_width_calculators Scale.medium ⟨true, false, true⟩).1 rfl,
    (default_width_calculators Scale.large ⟨false, false, false⟩).2.2 rfl rfl⟩

end TableDefaults

namespace SelectList

/-- Clamping of a JavaScript `Array.prototype.slice` index: a negative index
counts from the end (clamped below at 0), a nonnegative index is clamped above
at the length. -/
def jsSliceIdx (len : Nat) (i : Int) : Nat :=
  if i < 0 then ((len : Int) + i).toNat else min i.toNat len

/-- JavaScript `value.slice(start, stop)` on lists. -/
def jsSlice {α : Type} (l : List α) (start stop : Int) : List α :=
  (l.take (jsSliceIdx l.length stop)).drop (jsSliceIdx l.length start)

/-- Index of the first occurrence, as an `Option`. -/
def jsIndexOfAux {α : Type} [DecidableEq α] (x : α) : List α → Option Nat
  | [] => none
  | a :: r => if a = x then some 0 else (jsIndexOfAux x r).map (· + 1)

/-- JavaScript `value.indexOf(x)`: index of the first occurrence, `-1` when
absent. -/
def jsIndexOf {α : Type} [DecidableEq α] (l : List α) (x : α) : Int :=
  match jsIndexOfAux x l with
  | some n => (n : Int)
  | none => -1

/-- Embedding of `SelectList.addSelection`: spread of the current value with
the option's value appended. -/
def addSelection {α : Type} (value : List α) (optionValue : α) : List α :=
  value ++ [optionValue]

/-- Embedding of `SelectList.removeSelection`: with `index` the first
occurrence of the option's value, concatenate `value.slice(0, index)` and
`value.slice(index + 1, value.length)`. -/
def removeSelection {α : Type} [DecidableEq α] (value : List α) (optionValue : α) : List α :=
  let index := jsIndexOf value optionValue
  jsSlice value 0 index ++ jsSlice value (index + 1) (value.length : Int)

/-- The component's `state.value`, which in the JavaScript source is
`undefined`, a scalar option value (single-selection mode), or an array of
option values (multiple-selection mode). -/
inductive SelValue (α : Type) where
  | undef
  | scalar (a : α)
  | listV (l : List α)
  deriving DecidableEq, Repr

/-- The JavaScript idiom `this.state.value || []` as used by the
multiple-selection branches: a missing value becomes the empty list. (A
scalar value in multiple-selection mode is outside the model; the claims
under scrutiny quantify over list-valued states.) -/
def valueOrEmpty {α : Type} : SelValue α → List α
  | .listV l => l
  | _ => []

/-- Embedding of `SelectList.isSelected`: in multiple mode,
`state.value && state.value.indexOf(option.value) >= 0` (a missing value is
falsy); otherwise strict equality `state.value === option.value`. -/
def isSelected {α : Type} [DecidableEq α] (multiple : Bool) (stVal : SelValue α) (x : α) : Bool :=
  if multiple then
    match stVal with
    | SelValue.listV l => decide (0 ≤ jsIndexOf l x)
    | _ => false
  else decide (stVal = SelValue.scalar x)

/-- The `nextOptions` value computed by `SelectList.handleSelect`: in multiple
mode toggle via `removeSelection`/`addSelection`, otherwise the option's
value. -/
def nextOptions {α : Type} [DecidableEq α] (multiple : Bool) (stVal : SelValue α) (x : α) :
    SelValue α :=
  if multiple then
    if isSelected multiple stVal x then
      SelValue.listV (removeSelection (valueOrEmpty stVal) x)
    else
      SelValue.listV (addSelection (valueOrEmpty stVal) x)
  else SelValue.scalar x

/-- Result of one `handleSelect` call: the component's state value afterwards
and the argument passed to `onChange` (`none` when no callback fired). -/
structure HandleSelectResult (α : Type) where
  stateValue : SelValue α
  onChangeArg : Option (SelValue α)
  deriving DecidableEq, Repr

/-- Embedding of `SelectList.handleSelect`; `hasValueProp` models
`'value' in this.props` (controlled mode), `hasOnChange` whether an
`onChange` prop was provided. State is set only in uncontrolled mode. -/
def handleSelect {α : Type} [DecidableEq α] (multiple hasValueProp hasOnChange : Bool)
    (stVal : SelValue α) (x : α) : HandleSelectResult α :=
  let next := nextOptions multiple stVal x
  { stateValue := if hasValueProp then stVal else next,
    onChangeArg := if hasOnChange then some next else none }

theorem jsIndexOfAux_eq_none {α : Type} [DecidableEq α] {x : α} {l : List α} (h : x ∉ l) :
    jsIndexOfAux x l = none := by
  induction l with
  | nil => rfl
  | cons a r ih =>
    have hax : ¬ (a = x) := fun hax => h (hax ▸ List.mem_cons_self a r)
    have hr : x ∉ r := fun hm => h (List.mem_cons_of_mem a hm)
    simp [jsIndexOfAux, hax, ih hr]

theorem jsIndexOfAux_append_self {α : Type} [DecidableEq α] {x : α} {l : List α} (h : x ∉ l) :
    jsIndexOfAux x (l ++ [x]) = some l.length := by
  induction l with
  | nil => simp [jsIndexOfAux]
  | cons a r ih =>
    have hax : ¬ (a = x) := fun hax => h (hax ▸ List.mem_cons_self a r)
    have hr : x ∉ r := fun hm => h (List.mem_cons_of_mem a hm)
    simp [jsIndexOfAux, hax, ih hr]

theorem jsSliceIdx_natCast (len n : Nat) : jsSliceIdx len (n : Int) = min n len := by
  simp [jsSliceIdx]

theorem removeSelection_append {α : Type} [DecidableEq α] {v : List α} {x : α} (h : x ∉ v) :
    removeSelection (v ++ [x]) x = v := by
  have hidx : jsIndexOf (v ++ [x]) x = (v.length : Int) := by
    simp [jsIndexOf, jsIndexOfAux_append_self h]
  have hlen : (v ++ [x]).length = v.length + 1 := by simp
  have hcast : ((v.length : Int) + 1) = ((v.length + 1 : Nat) : Int) := by push_cast; ring
  have h0 : jsSliceIdx (v.length + 1) (0 : Int) = 0 := by simp [jsSliceIdx]
  have hmin1 : min v.length (v.length + 1) = v.length := by omega
  have hmin2 : min (v.length + 1) (v.length + 1) = v.length + 1 := by omega
  have htake : (v ++ [x]).take v.length = v := List.take_left v [x]
  have hdrop : ((v ++ [x]).take (v.length + 1)).drop (v.length + 1) = [] :=
    List.drop_eq_nil_of_le (List.length_take_le (v.length + 1) (v ++ [x]))
  simp only [removeSelection, hidx, hcast, jsSlice, hlen, jsSliceIdx_natCast, h0,
    hmin1, hmin2, List.drop_zero, htake, hdrop, List.append_nil]

/-- C8: In multiple-selection (uncontrolled) mode, selection toggling
round-trips: for every current selection list `v` and option value `x` not
occurring in `v`, applying `handleSelect` for `x` twice yields a selection
equal to `v` — the first call appends `x` at the end, the second removes
exactly that first (and only) occurrence. -/
theorem multiple_toggle_roundtrip {α : Type} [DecidableEq α] (v : List α) (x : α)
    (hasOnChange : Bool) (h : x ∉ v) :
    (handleSelect true false hasOnChange
        ((handleSelect true false hasOnChange (SelValue.listV v) x).stateValue)
        x).stateValue = SelValue.listV v := by
  have hsel0 : isSelected true (SelValue.listV v) x = false := by
    simp [isSelected, jsIndexOf, jsIndexOfAux_eq_none h]
  have h1 : (handleSelect true false hasOnChange (SelValue.listV v) x).stateValue
      = SelValue.listV (v ++ [x]) := by
    simp [handleSelect, nextOptions, hsel0, addSelection, valueOrEmpty]
  rw [h1]
  have hsel1 : isSelected true (SelValue.listV (v ++ [x])) x = true := by
    simp [isSelected, jsIndexOf, jsIndexOfAux_append_self h]
  simp [handleSelect, nextOptions, hsel1, valueOrEmpty, removeSelection_append h]

/-- Witness for C8 at a concrete input: toggling the value 3 twice on the
selection `[1, 2]` returns to `[1, 2]`. -/
theorem multiple_toggle_roundtrip_witness :
    (handleSelect true false true
        ((handleSelect true false true (SelValue.listV [1, 2]) 3).stateValue)
        3).stateValue = SelValue.listV ([1, 2] : List Nat) :=
  multiple_toggle_roundtrip [1, 2] 3 true (by decide)

/-- C9: In controlled mode (a `value` prop present), `handleSelect` never
modifies the component's own state for any option: the state value is
unchanged, and the computed next selection is passed to `onChange` exactly
when that callback is provided; the stored state value is changed by
`handleSelect` only in uncontrolled mode, where it becomes the computed next
selection. -/
theorem controlled_handleSelect_frame {α : Type} [DecidableEq α] (multiple hasOnChange : Bool)
    (stVal : SelValue α) (x : α) :
    (handleSelect multiple true hasOnChange stVal x).stateValue = stVal
    ∧ (handleSelect multiple true hasOnChange stVal x).onChangeArg
        = (if hasOnChange then some (nextOptions multiple stVal x) else none)
    ∧ (handleSelect multiple false hasOnChange stVal x).stateValue
        = nextOptions multiple stVal x := by
  refine ⟨by simp [handleSelect], by simp [handleSelect], by simp [handleSelect]⟩

/-- The four props destructured by `SelectList.render`, each possibly omitted
(`undefined`). -/
structure SelectListProps where
  multiple : Option Bool
  disabled : Option Bool
  invalid : Option Bool
  required : Option Bool
  deriving DecidableEq, Repr

/-- The aria attributes placed on the rendered `List`. -/
structure ListAriaAttrs where
  multiselectable : Bool
  disabled : Bool
  invalid : Bool
  required : Bool
  deriving DecidableEq, Repr

/-- Embedding of `SelectList.render`: destructuring with default `false`
(applied when the prop is `undefined`), and the four aria attributes set from
the resulting values. -/
def renderAria (p : SelectListProps) : ListAriaAttrs :=
  let multiple := match p.multiple with | none => false | some b => b
  let disabled := match p.disabled with | none => false | some b => b
  let invalid := match p.invalid with | none => false | some b => b
  let required := match p.required with | none => false | some b => b
  { multiselectable := multiple, disabled := disabled,
    invalid := invalid, required := required }

/-- C7: For every combination of props, `SelectList` renders a `List` whose
`aria-multiselectable` equals the `multiple` prop, `aria-disabled` equals
`disabled`, `aria-invalid` equals `invalid`, and `aria-required` equals
`required`, each defaulting to `false` when the corresponding prop is
omitted. -/
theorem render_aria_attrs (p : SelectListProps) :
    renderAria p = { multiselectable := p.multiple.getD false,
                     disabled := p.disabled.getD false,
                     invalid := p.invalid.getD false,
                     required := p.required.getD false } := by
  obtain ⟨m, d, i, r⟩ := p
  cases m <;> cases d <;> cases i <;> cases r <;> rfl

/-- A JavaScript value as far as `componentWillReceiveProps` observes one:
only truthiness and strict equality matter. `nanV` models `NaN` (falsy;
`NaN !== NaN`, but that comparison is short-circuited away since `NaN` is
falsy); `arrV ref` models an array through its reference identity, since `!==`
compares arrays by reference. -/
inductive JSVal where
  | undef
  | jsNull
  | boolV (b : Bool)
  | numV (q : ℚ)
  | nanV
  | strV (s : String)
  | arrV (ref : Nat)
  deriving DecidableEq, Repr

/-- JavaScript truthiness for the values above. -/
def truthy : JSVal → Bool
  | .undef => false
  | .jsNull => false
  | .boolV b => b
  | .numV q => decide (q ≠ 0)
  | .nanV => false
  | .strV s => decide (s.length ≠ 0)
  | .arrV _ => true

/-- Embedding of `SelectList.componentWillReceiveProps`: the stored selection
is replaced by the incoming `value` prop only when
`props.value && props.value !== this.state.value`; it returns the resulting
stored state value. -/
def componentWillReceiveProps (incoming stored : JSVal) : JSVal :=
  if truthy incoming = true ∧ incoming ≠ stored then incoming else stored

/-- C10: `componentWillReceiveProps` leaves the stored selection unchanged
exactly when the incoming `value` prop is falsy (`null`, `undefined`, `false`,
`0`, `NaN`, the empty string) or strictly equal to the stored one — so a
parent cannot clear the selection by passing a falsy value — and it adopts
the incoming value exactly when that value is truthy or already equal to the
stored one. -/
theorem falsy_value_prop_keeps_state (incoming stored : JSVal) :
    (componentWillReceiveProps incoming stored = stored
      ↔ (truthy incoming = false ∨ incoming = stored))
    ∧ (componentWillReceiveProps incoming stored = incoming
      ↔ (truthy incoming = true ∨ incoming = stored)) := by
  by_cases ht : truthy incoming = true
  · by_cases he : incoming = stored <;>
      simp [componentWillReceiveProps, ht, he, Ne.symm]
  · rw [Bool.not_eq_true] at ht
    constructor
    · simp [componentWillReceiveProps, ht]
    · simp [componentWillReceiveProps, ht, eq_comm]

end SelectList
